import Mathlib

/-!
Shallow embedding of vergit (src/main.rs), a command-line tool that selects
the latest semantic-versioning tag of a git repository and computes an
incremented version, optionally creating the new tag.

The embedding models, from the source:

* the semver crate data used by the program: `Version` with `u64` numeric
  components (modelled as `Nat` with explicit `% 2 ^ 64` where overflow can
  occur; release-profile wrap-around semantics) and the prerelease and build
  fields kept in their string form, exactly as the program manipulates them;
* the semver string grammar (`semver::Version::from_str`): numeric components
  are decimal, without leading zeros, below `2 ^ 64`; prerelease identifiers
  are nonempty, drawn from ASCII alphanumerics plus hyphen, and numeric
  identifiers have no leading zeros; build identifiers allow leading zeros;
* the semver total order (`impl Ord for Version`): major, minor, patch,
  then prerelease precedence (an empty prerelease is greater than any
  nonempty one; numeric identifiers are below alphanumeric ones and compare
  by value, implemented as length-then-lexicographic on the digit strings),
  and finally build metadata as a tiebreak, compared like the crate does
  (digit-only identifiers by length then bytes, otherwise bytes);
* Rust's `str::parse::<u64>`: an optional leading plus sign, then decimal
  digits only (leading zeros allowed), value below `2 ^ 64`;
* the repository as a snapshot: the tag list returned by `tag_names`, the
  HEAD commit id, libgit2's `git_reference_name_to_id` (which resolves full
  reference names such as `refs/tags/x`; a bare tag name is not a valid
  reference name and fails to resolve) and `find_tag` (which succeeds only
  on ids of annotated-tag objects);
* the selection and bump pipeline of `main` (src/main.rs:144-279), with tag
  creation modelled as the list of tag names the run creates, so that a
  failing run visibly creates no tag.
-/

namespace Vergit

/-- Modulus of Rust u64 arithmetic: `2 ^ 64`. -/
def u64Mod : Nat := 2 ^ 64

/-- The decimal digit characters, used to model Rust's `Display` for `u64`. -/
def digitChar : Nat → Char
  | 0 => '0'
  | 1 => '1'
  | 2 => '2'
  | 3 => '3'
  | 4 => '4'
  | 5 => '5'
  | 6 => '6'
  | 7 => '7'
  | 8 => '8'
  | _ => '9'

/-- Fuelled decimal printer for `Nat`, most significant digit first.
The fuel is only there to keep the recursion structural. -/
def natToCharsAux : Nat → Nat → List Char
  | 0, _ => []
  | fuel + 1, n =>
    if n < 10 then [digitChar n]
    else natToCharsAux fuel (n / 10) ++ [digitChar (n % 10)]

/-- Decimal representation of a `Nat`, models Rust's `format!` of a `u64`. -/
def natToChars (n : Nat) : List Char := natToCharsAux (n + 1) n

/-- Decimal representation as a `String`. -/
def natToString (n : Nat) : String := String.mk (natToChars n)

/-- Value of a digit string (most significant digit first). -/
def digitsVal (cs : List Char) : Nat :=
  cs.foldl (fun a c => a * 10 + (c.toNat - 48)) 0

/-- Rust's `str::parse` strips at most one leading plus sign. -/
def stripPlus (cs : List Char) : List Char :=
  match cs with
  | [] => []
  | c :: rest => if c = '+' then rest else c :: rest

/-- Models Rust's `str::parse::<u64>` (src/main.rs:220): an optional leading
plus sign, then one or more decimal digits (leading zeros accepted), and the
value must fit in a `u64`; anything else is an error, modelled as `none`. -/
def parseU64Chars (cs : List Char) : Option Nat :=
  if (stripPlus cs).isEmpty then none
  else if (stripPlus cs).all Char.isDigit then
    if digitsVal (stripPlus cs) < u64Mod then some (digitsVal (stripPlus cs))
    else none
  else none

/-- `str::parse::<u64>` on a `String`. -/
def parseU64 (s : String) : Option Nat := parseU64Chars s.data

/-- Characters allowed in semver prerelease and build identifiers. -/
def isIdentChar (c : Char) : Bool := c.isAlphanum || c == '-'

/-- A valid semver prerelease identifier: nonempty, allowed characters only,
and if it is purely numeric it has no leading zero (unless it is `0`). -/
def validIdent (cs : List Char) : Bool :=
  !cs.isEmpty && cs.all isIdentChar &&
    (!cs.all Char.isDigit || cs.length == 1 || cs.head? != some '0')

/-- A valid semver build identifier: nonempty, allowed characters only
(leading zeros are permitted in build metadata). -/
def validBuildIdent (cs : List Char) : Bool :=
  !cs.isEmpty && cs.all isIdentChar

/-- Helper for splitting a character list at every occurrence of `sep`:
returns the segment before the first separator and the remaining segments. -/
def splitChAux (sep : Char) : List Char → List Char × List (List Char)
  | [] => ([], [])
  | c :: cs =>
    if c = sep then ([], (splitChAux sep cs).1 :: (splitChAux sep cs).2)
    else (c :: (splitChAux sep cs).1, (splitChAux sep cs).2)

/-- Split a character list at every occurrence of `sep`; like Rust's
`str::split`, the empty list yields one empty segment. -/
def splitCh (sep : Char) (cs : List Char) : List (List Char) :=
  (splitChAux sep cs).1 :: (splitChAux sep cs).2

/-- Models Rust's `str::rsplit_once` (src/main.rs:218): split at the last
occurrence of `sep` into the part before and the part after, or `none` when
`sep` does not occur. -/
def rsplitOnce (sep : Char) : List Char → Option (List Char × List Char)
  | [] => none
  | c :: cs =>
    match rsplitOnce sep cs with
    | some (h, t) => some (c :: h, t)
    | none => if c = sep then some ([], cs) else none

/-- Validity of a whole prerelease string: every dot-separated identifier is
a valid prerelease identifier. -/
def validPreChars (cs : List Char) : Bool :=
  (splitCh '.' cs).all validIdent

/-- Validity of a whole build-metadata string. -/
def validBuildChars (cs : List Char) : Bool :=
  (splitCh '.' cs).all validBuildIdent

/-- Models `semver::Prerelease::from_str` on the strings the program passes
to it (the argument built at src/main.rs:224 is never empty): the string is
accepted, unchanged, exactly when all its identifiers are valid. -/
def prereleaseFromChars (cs : List Char) : Option String :=
  if validPreChars cs then some (String.mk cs) else none

/-- Models `semver::Version`: `u64` components plus the prerelease and build
fields in string form (empty string = absent), as the program uses them. -/
structure Version where
  major : Nat
  minor : Nat
  patch : Nat
  pre : String
  build : String
deriving DecidableEq

/-- Parse one numeric semver component: one or more decimal digits with no
leading zero (unless the component is exactly `0`), value below `2 ^ 64`;
returns the value and the unconsumed rest. -/
def parseNum (cs : List Char) : Option (Nat × List Char) :=
  let ds := cs.takeWhile Char.isDigit
  if ds.isEmpty then none
  else if 1 < ds.length ∧ ds.head? = some '0' then none
  else if digitsVal ds < u64Mod then some (digitsVal ds, cs.dropWhile Char.isDigit)
  else none

/-- Consume a literal dot. -/
def expectDot : List Char → Option (List Char)
  | '.' :: rest => some rest
  | _ => none

/-- Parse the optional `-prerelease` and `+build` suffixes after the numeric
components; trailing garbage is an error. -/
def parseRest (maj mino pat : Nat) (cs : List Char) : Option Version :=
  match cs with
  | [] => some ⟨maj, mino, pat, "", ""⟩
  | '-' :: rest =>
    if validPreChars (rest.takeWhile (fun c => c != '+')) then
      match rest.dropWhile (fun c => c != '+') with
      | [] => some ⟨maj, mino, pat, String.mk (rest.takeWhile (fun c => c != '+')), ""⟩
      | '+' :: b =>
        if validBuildChars b then
          some ⟨maj, mino, pat, String.mk (rest.takeWhile (fun c => c != '+')), String.mk b⟩
        else none
      | _ => none
    else none
  | '+' :: b =>
    if validBuildChars b then some ⟨maj, mino, pat, "", String.mk b⟩ else none
  | _ => none

/-- Models `semver::Version::from_str` (used at src/main.rs:160): tag names
that do not parse yield `none` and are silently skipped by the collector. -/
def parseVersion (s : String) : Option Version :=
  match parseNum s.data with
  | none => none
  | some (maj, r1) =>
    match expectDot r1 with
    | none => none
    | some r2 =>
      match parseNum r2 with
      | none => none
      | some (mino, r3) =>
        match expectDot r3 with
        | none => none
        | some r4 =>
          match parseNum r4 with
          | none => none
          | some (pat, r5) => parseRest maj mino pat r5

/-- Models `semver::Version`'s `Display`: `major.minor.patch`, then
`-prerelease` when present, then `+build` when present. -/
def versionToString (v : Version) : String :=
  natToString v.major ++ "." ++ natToString v.minor ++ "." ++ natToString v.patch ++
    (if v.pre == "" then "" else "-" ++ v.pre) ++
    (if v.build == "" then "" else "+" ++ v.build)

/-- Three-way comparison of `Nat`, models `u64::cmp`. -/
def natCmp (a b : Nat) : Ordering :=
  if a < b then Ordering.lt else if a = b then Ordering.eq else Ordering.gt

/-- Byte comparison of characters; for UTF-8 strings byte order coincides
with code-point order, which is what Rust's `str::cmp` produces. -/
def charCmp (a b : Char) : Ordering := natCmp a.toNat b.toNat

/-- Lexicographic comparison of character lists (Rust's `str::cmp`). -/
def listCharCmp : List Char → List Char → Ordering
  | [], [] => Ordering.eq
  | [], _ :: _ => Ordering.lt
  | _ :: _, [] => Ordering.gt
  | x :: xs, y :: ys =>
    match charCmp x y with
    | Ordering.eq => listCharCmp xs ys
    | o => o

/-- Comparison of two prerelease identifiers, as in the semver crate's
`Ord for Prerelease`: two digit-only identifiers compare by length then
bytes (numeric order, since valid numeric identifiers have no leading
zeros), a digit-only identifier is below an alphanumeric one, and two
alphanumeric identifiers compare by bytes. -/
def identCmp (a b : List Char) : Ordering :=
  match a.all Char.isDigit, b.all Char.isDigit with
  | true, true =>
    match natCmp a.length b.length with
    | Ordering.eq => listCharCmp a b
    | o => o
  | true, false => Ordering.lt
  | false, true => Ordering.gt
  | false, false => listCharCmp a b

/-- Comparison of two build identifiers, as in the semver crate's
`Ord for BuildMetadata`: two digit-only identifiers compare by length then
bytes; every other combination compares by bytes. -/
def buildIdentCmp (a b : List Char) : Ordering :=
  match a.all Char.isDigit, b.all Char.isDigit with
  | true, true =>
    match natCmp a.length b.length with
    | Ordering.eq => listCharCmp a b
    | o => o
  | _, _ => listCharCmp a b

/-- Lexicographic extension of an identifier comparison to identifier
sequences; a strict prefix is smaller. -/
def lexCmp (f : List Char → List Char → Ordering) :
    List (List Char) → List (List Char) → Ordering
  | [], [] => Ordering.eq
  | [], _ :: _ => Ordering.lt
  | _ :: _, [] => Ordering.gt
  | x :: xs, y :: ys =>
    match f x y with
    | Ordering.eq => lexCmp f xs ys
    | o => o

/-- Prerelease precedence (`Ord for Prerelease`): an empty prerelease is
greater than any nonempty one; nonempty ones compare identifier-wise. -/
def preCmp (a b : String) : Ordering :=
  match a.isEmpty, b.isEmpty with
  | true, true => Ordering.eq
  | true, false => Ordering.gt
  | false, true => Ordering.lt
  | false, false => lexCmp identCmp (splitCh '.' a.data) (splitCh '.' b.data)

/-- Build-metadata comparison (`Ord for BuildMetadata`); the empty string
has the single empty identifier, which is below every other identifier. -/
def buildCmp (a b : String) : Ordering :=
  lexCmp buildIdentCmp (splitCh '.' a.data) (splitCh '.' b.data)

/-- The semver crate's `Ord for Version`: major, minor, patch, prerelease
precedence, and finally build metadata as a tiebreak (the crate compares
build metadata so that `Ord` stays consistent with structural `Eq`). -/
def versionCmp (a b : Version) : Ordering :=
  match natCmp a.major b.major with
  | Ordering.eq =>
    match natCmp a.minor b.minor with
    | Ordering.eq =>
      match natCmp a.patch b.patch with
      | Ordering.eq =>
        match preCmp a.pre b.pre with
        | Ordering.eq => buildCmp a.build b.build
        | o => o
      | o => o
    | o => o
  | o => o

/-- Models `Iterator::max` with the above ordering: `none` on an empty
list; when several elements are equally maximal the last one wins. -/
def iterMax (l : List Version) : Option Version :=
  l.foldl
    (fun acc v =>
      match acc with
      | none => some v
      | some m => if versionCmp m v = Ordering.gt then some m else some v)
    none

/-- One tag of the repository snapshot: its short name (as returned by
`tag_names`), whether it is an annotated tag, the object id stored in the
reference `refs/tags/<name>` (the tag object for an annotated tag, the
commit itself for a lightweight tag), and the commit it points to after
peeling. -/
structure TagRef where
  name : String
  annotated : Bool
  oid : Nat
  target : Nat
deriving DecidableEq

/-- A snapshot of the repository: its tags and the HEAD commit id. -/
structure Repo where
  tags : List TagRef
  headCommit : Nat
deriving DecidableEq

/-- Models libgit2's `git_reference_name_to_id` (src/main.rs:182): resolves
a full reference name to the object id it stores. Tag references are named
`refs/tags/<name>`; a bare tag name such as `0.0.10` is not a valid
reference name, so looking it up fails. -/
def refnameToId (r : Repo) (refname : String) : Option Nat :=
  (r.tags.find? (fun t => ("refs/tags/" ++ t.name) == refname)).map (fun t => t.oid)

/-- Models `Repository::find_tag` (src/main.rs:185): succeeds exactly on
the object id of an annotated tag. -/
def findTag (r : Repo) (oid : Nat) : Option TagRef :=
  r.tags.find? (fun t => t.annotated && t.oid == oid)

/-- The predicate of the local-scope filter (src/main.rs:180-188), verbatim
from the source: a parsed version is KEPT when its name fails to resolve as
a reference, or resolves to something that is not an annotated tag, or
resolves to an annotated tag whose target differs from HEAD. -/
def localFilter (r : Repo) (v : Version) : Bool :=
  match refnameToId r (versionToString v) with
  | none => true
  | some tagId =>
    match findTag r tagId with
    | none => true
    | some t => t.target != r.headCommit

/-- The tag collector (src/main.rs:156-162): every tag name that parses as
a semantic version, in tag-list order. -/
def collectVersions (r : Repo) : List Version :=
  (r.tags.map (fun t => t.name)).filterMap parseVersion

/-- Current-version selection (src/main.rs:164-191): under Global scope the
maximum over all parsed tags; under Local scope the maximum over the parsed
tags that survive `localFilter`. -/
def latestVersion (r : Repo) (global : Bool) : Option Version :=
  if global then iterMax (collectVersions r)
  else iterMax ((collectVersions r).filter (localFilter r))

/-- Modelled from the spec: the Local-scope current version of section 4.2,
for comparison with the code, which the spec describes as the semantic
maximum among the parsed tags whose target commit equals HEAD's commit. -/
def specLocalCurrent (r : Repo) : Option Version :=
  iterMax (((r.tags.filter (fun t => t.target == r.headCommit)).map
    (fun t => t.name)).filterMap parseVersion)

/-- The component selector (src/main.rs:9-15). -/
inductive Component where
  | Major
  | Minor
  | Patch
  | Prerelease
deriving DecidableEq

/-- The two failure modes of the bump computation itself: the prerelease
tail fails to parse as `u64` (src/main.rs:220-222, context message `numeric
part of prerelease is not a valid non-zero integer`) and the rebuilt
prerelease string fails to validate (src/main.rs:224-225, context message
`failed to rebuild prerelease tag after increment`). -/
inductive BumpError where
  | nonNumericTail
  | rebuildFailed
deriving DecidableEq

/-- Errors of a whole run that the embedding models: no tag parsed as a
version (src/main.rs:191, `No semantic versioning tags found`) or the bump
computation failed. -/
inductive VergitError where
  | noVersionTags
  | bumpFailed (e : BumpError)
deriving DecidableEq

/-- The split of the prerelease field performed at src/main.rs:217-218:
`rsplit_once` at the last dot, defaulting to an empty head and the whole
field as tail when there is no dot. -/
def preSplit (v : Version) : List Char × List Char :=
  match rsplitOnce '.' v.pre.data with
  | some p => p
  | none => ([], v.pre.data)

/-- The component bump (src/main.rs:202-229), verbatim from the source:
`Major`, `Minor` and `Patch` only increment their own field (no other field
is reset or cleared); `Prerelease` parses the tail of the prerelease as
`u64`, increments it, and rebuilds the field as `head ++ "." ++ tail+1`
(the dot is inserted unconditionally) through `Prerelease::from_str`. -/
def bump (v : Version) (c : Component) : Except BumpError Version :=
  match c with
  | Component.Major => Except.ok { v with major := (v.major + 1) % u64Mod }
  | Component.Minor => Except.ok { v with minor := (v.minor + 1) % u64Mod }
  | Component.Patch => Except.ok { v with patch := (v.patch + 1) % u64Mod }
  | Component.Prerelease =>
    match parseU64Chars (preSplit v).2 with
    | none => Except.error BumpError.nonNumericTail
    | some n =>
      match prereleaseFromChars ((preSplit v).1 ++ '.' :: natToChars ((n + 1) % u64Mod)) with
      | none => Except.error BumpError.rebuildFailed
      | some p => Except.ok { v with pre := p }

/-- The caller-supplied options the core consumes (src/main.rs:23-86);
`push`, `remote`, `path` and `quiet` are outside the modelled core. -/
structure BumpOptions where
  component : Option Component
  global : Bool
  dry_run : Bool

/-- Default component selection (src/main.rs:193-200): `Prerelease` when
the current version has a nonempty prerelease, otherwise `Patch`. -/
def defaultComponent (c : Option Component) (latest : Version) : Component :=
  match c with
  | some c => c
  | none => if latest.pre == "" then Component.Patch else Component.Prerelease

/-- One run of `vergit bump` (src/main.rs:144-279): select the current
version, bump it, and (unless `dry_run`) create a tag named after the new
version at HEAD. The second component is the list of tags the run creates:
a failing run creates none, because tag creation (src/main.rs:231-240)
only executes after the bump computation has succeeded. -/
def runBump (repo : Repo) (opts : BumpOptions) :
    Except VergitError Version × List String :=
  match latestVersion repo opts.global with
  | none => (Except.error VergitError.noVersionTags, [])
  | some latest =>
    match bump latest (defaultComponent opts.component latest) with
    | Except.error e => (Except.error (VergitError.bumpFailed e), [])
    | Except.ok nv => (Except.ok nv, if opts.dry_run then [] else [versionToString nv])

/-- Snapshot of the claim C1 scenario: an annotated tag `0.0.9` pointing at
the HEAD commit (id 1) and an annotated tag `5.0.0` pointing at another
commit (id 2). -/
def repoC1 : Repo :=
  ⟨[⟨"0.0.9", true, 10, 1⟩, ⟨"5.0.0", true, 11, 2⟩], 1⟩

/-- Snapshot of the regression scenario: annotated tags `0.0.9` and
`0.0.10`, both pointing at the HEAD commit. -/
def repoC1reg : Repo :=
  ⟨[⟨"0.0.9", true, 10, 1⟩, ⟨"0.0.10", true, 11, 1⟩], 1⟩

/-- Snapshot of the claim C3 scenario (also the example in the program's
own help text, src/main.rs:97-107). -/
def repoC3 : Repo :=
  ⟨[⟨"hello-world", false, 0, 0⟩, ⟨"0.0.1-beta.3", false, 0, 0⟩,
    ⟨"0.3.4", false, 0, 0⟩, ⟨"1.8.5", false, 0, 0⟩], 0⟩

/-- Snapshot with a single annotated version tag `1.0.0` that does NOT
point at the HEAD commit. -/
def repoC8 : Repo := ⟨[⟨"1.0.0", true, 11, 2⟩], 1⟩

/-- The empty snapshot. -/
def repoEmpty : Repo := ⟨[], 0⟩

/-- Snapshot with one annotated tag `0.0.1-beta` at HEAD. -/
def repoC6 : Repo := ⟨[⟨"0.0.1-beta", true, 10, 1⟩], 1⟩

/-- Options for the C6 witness: explicit prerelease bump, global scope. -/
def optsC6 : BumpOptions := ⟨some Component.Prerelease, true, false⟩

instance {ε α : Type} [DecidableEq ε] [DecidableEq α] : DecidableEq (Except ε α) :=
  fun a b =>
  match a, b with
  | Except.ok x, Except.ok y =>
    match decEq x y with
    | isTrue h => isTrue (by rw [h])
    | isFalse h => isFalse (fun hc => h (by cases hc; rfl))
  | Except.error x, Except.error y =>
    match decEq x y with
    | isTrue h => isTrue (by rw [h])
    | isFalse h => isFalse (fun hc => h (by cases hc; rfl))
  | Except.ok _, Except.error _ => isFalse (fun hc => by cases hc)
  | Except.error _, Except.ok _ => isFalse (fun hc => by cases hc)

/-! ### Helper lemmas -/

theorem splitChAux_append (sep : Char) (xs ys : List Char) :
    splitChAux sep (xs ++ sep :: ys) =
      ((splitChAux sep xs).1,
        (splitChAux sep xs).2 ++ (splitChAux sep ys).1 :: (splitChAux sep ys).2) := by
  induction xs with
  | nil => simp [splitChAux]
  | cons c xs ih =>
    by_cases hc : c = sep
    · subst hc
      simp [splitChAux, ih]
    · simp [splitChAux, hc, ih]

theorem splitCh_append (sep : Char) (xs ys : List Char) :
    splitCh sep (xs ++ sep :: ys) = splitCh sep xs ++ splitCh sep ys := by
  simp [splitCh, splitChAux_append]

theorem splitChAux_no_sep (sep : Char) (cs : List Char) (h : sep ∉ cs) :
    splitChAux sep cs = (cs, []) := by
  induction cs with
  | nil => rfl
  | cons c cs ih =>
    have h1 : ¬ c = sep := by
      intro hc
      subst hc
      exact h (List.mem_cons_self c cs)
    have h2 : sep ∉ cs := fun hm => h (List.mem_cons_of_mem _ hm)
    simp [splitChAux, h1, ih h2]

theorem splitCh_no_sep (sep : Char) (cs : List Char) (h : sep ∉ cs) :
    splitCh sep cs = [cs] := by
  simp [splitCh, splitChAux_no_sep sep cs h]

theorem rsplitOnce_eq_none (sep : Char) (cs : List Char) (h : sep ∉ cs) :
    rsplitOnce sep cs = none := by
  induction cs with
  | nil => rfl
  | cons c cs ih =>
    have h1 : ¬ c = sep := by
      intro hc
      subst hc
      exact h (List.mem_cons_self c cs)
    have h2 : sep ∉ cs := fun hm => h (List.mem_cons_of_mem _ hm)
    simp [rsplitOnce, ih h2, h1]

theorem rsplitOnce_append (sep : Char) (hd tl : List Char) (h : sep ∉ tl) :
    rsplitOnce sep (hd ++ sep :: tl) = some (hd, tl) := by
  induction hd with
  | nil => simp [rsplitOnce, rsplitOnce_eq_none sep tl h]
  | cons c hd ih => simp [rsplitOnce, ih]

theorem digitChar_isDigit (d : Nat) (h : d < 10) : (digitChar d).isDigit = true := by
  interval_cases d <;> rfl

theorem digitChar_ne_zero (d : Nat) (h1 : 1 ≤ d) (h2 : d < 10) : digitChar d ≠ '0' := by
  interval_cases d <;> decide

theorem natToCharsAux_ne_nil (fuel n : Nat) (h : n < fuel) :
    natToCharsAux fuel n ≠ [] := by
  cases fuel with
  | zero => omega
  | succ fuel =>
    by_cases h10 : n < 10
    · simp [natToCharsAux, h10]
    · simp [natToCharsAux, h10]

theorem natToCharsAux_all_digit (fuel : Nat) :
    ∀ n, n < fuel → ∀ c ∈ natToCharsAux fuel n, c.isDigit = true := by
  induction fuel with
  | zero => omega
  | succ fuel ih =>
    intro n hn c hc
    by_cases h10 : n < 10
    · simp [natToCharsAux, h10] at hc
      subst hc
      exact digitChar_isDigit n h10
    · simp [natToCharsAux, h10] at hc
      rcases hc with hc | hc
      · have hdiv : n / 10 < fuel := by
          have := Nat.div_lt_self (show 0 < n by omega) (show 1 < 10 by norm_num)
          omega
        exact ih (n / 10) hdiv c hc
      · subst hc
        exact digitChar_isDigit _ (Nat.mod_lt _ (by norm_num))

theorem natToCharsAux_head (fuel : Nat) :
    ∀ n, n < fuel → 0 < n → (natToCharsAux fuel n).head? ≠ some '0' := by
  induction fuel with
  | zero => omega
  | succ fuel ih =>
    intro n hn hpos
    by_cases h10 : n < 10
    · simp only [natToCharsAux, if_pos h10, List.head?_cons]
      intro hc
      exact digitChar_ne_zero n (by omega) h10 (Option.some.inj hc)
    · have hdiv : n / 10 < fuel := by
        have := Nat.div_lt_self (show 0 < n by omega) (show 1 < 10 by norm_num)
        omega
      have hposd : 0 < n / 10 := Nat.div_pos (by omega) (by norm_num)
      have hne := natToCharsAux_ne_nil fuel (n / 10) hdiv
      have hih := ih (n / 10) hdiv hposd
      obtain ⟨a, t, ht⟩ := List.exists_cons_of_ne_nil hne
      rw [ht] at hih
      simp only [natToCharsAux, if_neg h10, ht, List.cons_append, List.head?_cons] at hih ⊢
      exact hih

theorem natToChars_ne_nil (n : Nat) : natToChars n ≠ [] :=
  natToCharsAux_ne_nil _ _ (Nat.lt_succ_self n)

theorem natToChars_all_digit (n : Nat) : ∀ c ∈ natToChars n, c.isDigit = true :=
  natToCharsAux_all_digit _ _ (Nat.lt_succ_self n)

theorem natToChars_head (n : Nat) (h : 0 < n) : (natToChars n).head? ≠ some '0' :=
  natToCharsAux_head _ _ (Nat.lt_succ_self n) h

theorem isIdentChar_of_digit (c : Char) (h : c.isDigit = true) :
    isIdentChar c = true := by
  simp [isIdentChar, Char.isAlphanum, h]

theorem validIdent_natToChars (m : Nat) : validIdent (natToChars m) = true := by
  have h1 : (natToChars m).isEmpty = false := by
    cases hm : natToChars m with
    | nil => exact absurd hm (natToChars_ne_nil m)
    | cons a t => rfl
  have h2 : (natToChars m).all isIdentChar = true := by
    rw [List.all_eq_true]
    intro c hc
    exact isIdentChar_of_digit c (natToChars_all_digit m c hc)
  rcases Nat.eq_zero_or_pos m with hm | hm
  · subst hm
    decide
  · have h3 : (natToChars m).head? ≠ some '0' := natToChars_head m hm
    have h4 : ((natToChars m).head? != some '0') = true := by
      simp [bne_iff_ne, h3]
    simp [validIdent, h1, h2, h4]

theorem all_digit_false_of_mem (l : List Char) (c : Char) (hc : c ∈ l)
    (hd : c.isDigit = false) : l.all Char.isDigit = false := by
  cases hall : l.all Char.isDigit
  · rfl
  · rw [List.all_eq_true] at hall
    have hdt := hall c hc
    rw [hd] at hdt
    exact absurd hdt (by simp)

theorem parseU64Chars_none_of_nondigit (cs : List Char) (c : Char)
    (hc : c ∈ cs) (hd : c.isDigit = false) (hp : c ≠ '+') :
    parseU64Chars cs = none := by
  cases cs with
  | nil => cases hc
  | cons a rest =>
    by_cases ha : a = '+'
    · subst ha
      have hcr : c ∈ rest := by
        rcases List.mem_cons.mp hc with h | h
        · exact absurd h hp
        · exact h
      cases rest with
      | nil => cases hcr
      | cons b t =>
        have hall := all_digit_false_of_mem (b :: t) c hcr hd
        simp [parseU64Chars, stripPlus, hall]
    · have hall := all_digit_false_of_mem (a :: rest) c hc hd
      simp [parseU64Chars, stripPlus, ha, hall]

theorem parseU64Chars_none_of_overflow (cs : List Char) (h1 : cs ≠ [])
    (h2 : cs.all Char.isDigit = true) (h3 : u64Mod ≤ digitsVal cs) :
    parseU64Chars cs = none := by
  have hsp : stripPlus cs = cs := by
    cases cs with
    | nil => rfl
    | cons a rest =>
      have ha : a.isDigit = true := by
        rw [List.all_eq_true] at h2
        exact h2 a (List.mem_cons_self a rest)
      have hane : ¬ a = '+' := by
        intro hh
        rw [hh] at ha
        exact absurd ha (by decide)
      simp [stripPlus, hane]
  have hie : cs.isEmpty = false := by
    cases cs with
    | nil => exact absurd rfl h1
    | cons a rest => rfl
  simp [parseU64Chars, hsp, hie, h2, Nat.not_lt.mpr h3]

theorem bump_prerelease_err (v : Version)
    (h : parseU64Chars (preSplit v).2 = none) :
    bump v Component.Prerelease = Except.error BumpError.nonNumericTail := by
  simp [bump, h]

theorem bump_prerelease_ok (v : Version) (hd tl : List Char) (n : Nat)
    (hvalid : validPreChars v.pre.data = true)
    (hsplit : v.pre.data = hd ++ '.' :: tl)
    (hno : '.' ∉ tl)
    (hparse : parseU64Chars tl = some n)
    (hlt : n + 1 < u64Mod) :
    bump v Component.Prerelease =
      Except.ok { v with pre := String.mk (hd ++ '.' :: natToChars (n + 1)) } := by
  have hps : preSplit v = (hd, tl) := by
    unfold preSplit
    rw [hsplit, rsplitOnce_append '.' hd tl hno]
  have hmod : (n + 1) % u64Mod = n + 1 := Nat.mod_eq_of_lt hlt
  have hvh : (splitCh '.' hd).all validIdent = true := by
    have hv := hvalid
    unfold validPreChars at hv
    rw [hsplit, splitCh_append, List.all_append, Bool.and_eq_true] at hv
    exact hv.1
  have hnodot : ('.' : Char) ∉ natToChars (n + 1) := by
    intro hmem
    have := natToChars_all_digit (n + 1) '.' hmem
    exact absurd this (by decide)
  have hfrom : prereleaseFromChars (hd ++ '.' :: natToChars (n + 1)) =
      some (String.mk (hd ++ '.' :: natToChars (n + 1))) := by
    unfold prereleaseFromChars validPreChars
    rw [splitCh_append, splitCh_no_sep '.' _ hnodot, List.all_append]
    simp [hvh, validIdent_natToChars]
  simp [bump, hps, hparse, hmod, hfrom]

theorem natCmp_self (n : Nat) : natCmp n n = Ordering.eq := by
  simp [natCmp]

theorem charCmp_self (c : Char) : charCmp c c = Ordering.eq := by
  simp [charCmp, natCmp_self]

theorem listCharCmp_self (l : List Char) : listCharCmp l l = Ordering.eq := by
  induction l with
  | nil => rfl
  | cons c cs ih => simp [listCharCmp, charCmp_self, ih]

theorem identCmp_self (l : List Char) : identCmp l l = Ordering.eq := by
  cases h : l.all Char.isDigit
  · simp [identCmp, h, listCharCmp_self]
  · simp [identCmp, h, natCmp_self, listCharCmp_self]

theorem lexCmp_self (f : List Char → List Char → Ordering)
    (hf : ∀ x, f x x = Ordering.eq) (l : List (List Char)) :
    lexCmp f l l = Ordering.eq := by
  induction l with
  | nil => rfl
  | cons x xs ih => simp [lexCmp, hf, ih]

theorem preCmp_self (s : String) : preCmp s s = Ordering.eq := by
  cases h : s.isEmpty
  · simp [preCmp, h, lexCmp_self identCmp identCmp_self]
  · simp [preCmp, h]

/-! ### Claim theorems -/

/-- Claim C1: the claim states that under Local scope the selected current
version is the semantic maximum among the parsed tags whose target commit
equals HEAD's commit. The code does not do this: in `repoC1`, where `0.0.9`
is the only tag on HEAD, local selection returns `5.0.0`, the global
maximum, disagreeing with the spec-modelled selector; the local filter is
inert because the program passes the bare version string where libgit2
expects a full reference name, and its predicate is inverted besides. The
specific two-tag regression instance (`0.0.9` and `0.0.10` both on HEAD,
select `0.0.10`) does hold, but only because the filter keeps every tag. -/
theorem C1_local_scope_code :
    latestVersion repoC1 false = some ⟨5, 0, 0, "", ""⟩ ∧
    specLocalCurrent repoC1 = some ⟨0, 0, 9, "", ""⟩ ∧
    latestVersion repoC1 false ≠ specLocalCurrent repoC1 ∧
    latestVersion repoC1reg false = some ⟨0, 0, 10, "", ""⟩ := by
  refine ⟨by decide, by decide, by decide, by decide⟩

/-- Claim C2: the claim states that a Major bump resets minor and patch to
0 and clears prerelease and build. The code (src/main.rs:205-207) only
executes `major += 1`: bumping `1.2.3` yields `2.2.3`, not the claimed
`2.0.0`, and bumping `1.2.3-rc.1+x` keeps the prerelease and build. -/
theorem C2_major_bump_code :
    bump ⟨1, 2, 3, "", ""⟩ Component.Major = Except.ok ⟨2, 2, 3, "", ""⟩ ∧
    bump ⟨1, 2, 3, "rc.1", "x"⟩ Component.Major = Except.ok ⟨2, 2, 3, "rc.1", "x"⟩ ∧
    bump ⟨1, 2, 3, "", ""⟩ Component.Major ≠ Except.ok ⟨2, 0, 0, "", ""⟩ := by
  refine ⟨by decide, by decide, by decide⟩

/-- Claim C3: the claim (and the program's own help text at
src/main.rs:97-107) states that the scenario with tags `hello-world`,
`0.0.1-beta.3`, `0.3.4`, `1.8.5` under Global scope with a Minor bump
produces `1.9.0`. The code selects `1.8.5` correctly (ignoring
`hello-world`) but only executes `minor += 1` without resetting patch,
producing `1.9.5` and creating a tag named `1.9.5`. -/
theorem C3_global_minor_scenario_code :
    runBump repoC3 ⟨some Component.Minor, true, false⟩ =
      (Except.ok ⟨1, 9, 5, "", ""⟩, ["1.9.5"]) ∧
    (⟨1, 9, 5, "", ""⟩ : Version) ≠ ⟨1, 9, 0, "", ""⟩ := by
  refine ⟨by decide, by decide⟩

/-- Claim C4, counterexample to the claim as stated: the tail
`18446744073709551615` parses as a `u64` (value `2 ^ 64 - 1`), so the claim
asserts the bump yields last identifier `18446744073709551616`; instead the
`u64` addition wraps and the result's prerelease is `beta.0`. -/
theorem C4_tail_overflow_cex :
    bump ⟨0, 0, 1, "beta.18446744073709551615", ""⟩ Component.Prerelease =
      Except.ok ⟨0, 0, 1, "beta.0", ""⟩ ∧
    parseU64 "18446744073709551615" = some (u64Mod - 1) ∧
    bump ⟨0, 0, 1, "beta.18446744073709551615", ""⟩ Component.Prerelease ≠
      Except.ok ⟨0, 0, 1, "beta.18446744073709551616", ""⟩ := by
  refine ⟨by decide, by decide, by decide⟩

/-- Claim C4 (amended): for every Version whose prerelease is valid and has
at least two dot-separated identifiers, whose last identifier parses as a
`u64` value `n` with `n + 1 < 2 ^ 64`, the Prerelease bump succeeds and
produces the same version with only the prerelease changed to the unchanged
head followed by a dot and the decimal representation of `n + 1`; in
particular major, minor and patch are unchanged. -/
theorem C4_prerelease_bump_amended (v : Version) (hd tl : List Char) (n : Nat)
    (hvalid : validPreChars v.pre.data = true)
    (hsplit : v.pre.data = hd ++ '.' :: tl)
    (hno : '.' ∉ tl)
    (hparse : parseU64Chars tl = some n)
    (hlt : n + 1 < u64Mod) :
    bump v Component.Prerelease =
      Except.ok { v with pre := String.mk (hd ++ '.' :: natToChars (n + 1)) } :=
  bump_prerelease_ok v hd tl n hvalid hsplit hno hparse hlt

/-- Witness for C4: bumping `0.0.1-beta.1` yields `0.0.1-beta.2`. -/
theorem C4_prerelease_bump_amended_witness :
    bump ⟨0, 0, 1, "beta.1", ""⟩ Component.Prerelease =
      Except.ok ⟨0, 0, 1, "beta.2", ""⟩ := by
  have h := C4_prerelease_bump_amended ⟨0, 0, 1, "beta.1", ""⟩
    ['b', 'e', 't', 'a'] ['1'] 1 (by decide) (by decide) (by decide) (by decide)
    (by decide)
  exact h

/-- Claim C5: the claim states that a single numeric prerelease identifier
`n` bumps to exactly `n + 1` with no separator. The code instead formats
the new prerelease as `head ++ "." ++ (n+1)` unconditionally; with the
empty head this produces the string `.4`, which `Prerelease::from_str`
rejects (empty identifier), so bumping `0.0.1-3` fails with the
rebuild error instead of producing `0.0.1-4`. -/
theorem C5_single_identifier_code :
    bump ⟨0, 0, 1, "3", ""⟩ Component.Prerelease = Except.error BumpError.rebuildFailed ∧
    bump ⟨0, 0, 1, "3", ""⟩ Component.Prerelease ≠ Except.ok ⟨0, 0, 1, "4", ""⟩ := by
  refine ⟨by decide, by decide⟩

/-- Claim C6: when the computed prerelease tail contains a character that is
not a decimal digit (and is not a plus sign, which cannot occur in a
prerelease), the whole run fails with the non-numeric-tail error and
creates no tag. -/
theorem C6_nonnumeric_tail_aborts (repo : Repo) (opts : BumpOptions)
    (v : Version) (c : Char)
    (hcomp : opts.component = some Component.Prerelease)
    (hlatest : latestVersion repo opts.global = some v)
    (hmem : c ∈ (preSplit v).2)
    (hdig : c.isDigit = false)
    (hplus : c ≠ '+') :
    runBump repo opts =
      (Except.error (VergitError.bumpFailed BumpError.nonNumericTail), []) := by
  have herr : bump v Component.Prerelease = Except.error BumpError.nonNumericTail :=
    bump_prerelease_err v (parseU64Chars_none_of_nondigit _ c hmem hdig hplus)
  simp [runBump, hlatest, hcomp, defaultComponent, herr]

/-- Witness for C6: a repository whose only tag is `0.0.1-beta`; the
explicit Prerelease bump fails with the non-numeric-tail error and the run
creates no tag. -/
theorem C6_nonnumeric_tail_aborts_witness :
    runBump repoC6 optsC6 =
      (Except.error (VergitError.bumpFailed BumpError.nonNumericTail), []) :=
  C6_nonnumeric_tail_aborts repoC6 optsC6 ⟨0, 0, 1, "beta", ""⟩ 'b'
    (by decide) (by decide) (by decide) (by decide) (by decide)

/-- Claim C7: the claim states that a version with no prerelease fails with
a distinct missing-prerelease error, before any split is attempted. The
code has no such check: the split happens (trivially, yielding an empty
head and empty tail), the empty tail fails the `u64` parse, and the error
is the very same non-numeric-tail error produced for `0.0.1-beta`. -/
theorem C7_missing_prerelease_code :
    bump ⟨0, 0, 1, "", ""⟩ Component.Prerelease =
      Except.error BumpError.nonNumericTail ∧
    bump ⟨0, 0, 1, "beta", ""⟩ Component.Prerelease =
      Except.error BumpError.nonNumericTail := by
  refine ⟨by decide, by decide⟩

/-- Claim C8: the claim states that whenever no tag in the applicable scope
parses as a version, selection fails with the no-version-tags error. Under
Local scope this is false: in `repoC8` the only version tag does not point
at HEAD (the spec-modelled selector finds no candidate), yet the code
returns `1.0.0` because the local filter is inert. The error does occur
when no tag in the whole repository parses, e.g. on the empty snapshot,
under either scope. -/
theorem C8_no_candidates_code :
    latestVersion repoC8 false = some ⟨1, 0, 0, "", ""⟩ ∧
    specLocalCurrent repoC8 = none ∧
    runBump repoEmpty ⟨none, false, false⟩ =
      (Except.error VergitError.noVersionTags, []) ∧
    runBump repoEmpty ⟨none, true, false⟩ =
      (Except.error VergitError.noVersionTags, []) := by
  refine ⟨by decide, by decide, by decide, by decide⟩

/-- Claim C9, counterexample to the claim as stated: two versions that
differ only in build metadata are NOT treated as equal by the ordering the
selection uses; `1.0.0+a` compares strictly below `1.0.0+b`, and the
maximum of the two is `1.0.0+b` regardless of the order they appear in, so
the reported maximum IS determined by the build metadata. -/
theorem C9_build_metadata_cex :
    versionCmp ⟨1, 0, 0, "", "a"⟩ ⟨1, 0, 0, "", "b"⟩ = Ordering.lt ∧
    iterMax [⟨1, 0, 0, "", "a"⟩, ⟨1, 0, 0, "", "b"⟩] = some ⟨1, 0, 0, "", "b"⟩ ∧
    iterMax [⟨1, 0, 0, "", "b"⟩, ⟨1, 0, 0, "", "a"⟩] = some ⟨1, 0, 0, "", "b"⟩ := by
  refine ⟨by decide, by decide, by decide⟩

/-- Claim C9 (amended): build metadata participates in the ordering as the
final tiebreak: for any two versions equal in major, minor, patch and
prerelease, their comparison is exactly the comparison of their build
metadata. -/
theorem C9_build_metadata_amended (a b : Version)
    (h1 : a.major = b.major) (h2 : a.minor = b.minor)
    (h3 : a.patch = b.patch) (h4 : a.pre = b.pre) :
    versionCmp a b = buildCmp a.build b.build := by
  simp [versionCmp, h1, h2, h3, h4, natCmp_self, preCmp_self]

/-- Witness for C9 (amended), instantiated at two concrete versions that
differ only in build metadata. -/
theorem C9_build_metadata_amended_witness :
    versionCmp ⟨2, 3, 4, "rc.1", "x"⟩ ⟨2, 3, 4, "rc.1", "y"⟩ = buildCmp "x" "y" :=
  C9_build_metadata_amended ⟨2, 3, 4, "rc.1", "x"⟩ ⟨2, 3, 4, "rc.1", "y"⟩
    rfl rfl rfl rfl

/-- Claim C10: the prerelease tail is parsed as an unsigned 64-bit integer.
First part: a purely numeric tail whose value is at least `2 ^ 64` fails to
parse, so the bump fails with the same non-numeric-tail error. Second part:
a tail that parses as `n` with `n + 1 < 2 ^ 64` (i.e. `n ≤ 2 ^ 64 - 2`) is
incremented exactly, the result's last identifier being the decimal
representation of `n + 1`. -/
theorem C10_u64_tail :
    (∀ v : Version,
      (preSplit v).2 ≠ [] →
      (preSplit v).2.all Char.isDigit = true →
      u64Mod ≤ digitsVal (preSplit v).2 →
      bump v Component.Prerelease = Except.error BumpError.nonNumericTail) ∧
    (∀ (v : Version) (hd tl : List Char) (n : Nat),
      validPreChars v.pre.data = true →
      v.pre.data = hd ++ '.' :: tl →
      '.' ∉ tl →
      parseU64Chars tl = some n →
      n + 1 < u64Mod →
      bump v Component.Prerelease =
        Except.ok { v with pre := String.mk (hd ++ '.' :: natToChars (n + 1)) }) := by
  constructor
  · intro v h1 h2 h3
    exact bump_prerelease_err v (parseU64Chars_none_of_overflow _ h1 h2 h3)
  · intro v hd tl n hvalid hsplit hno hparse hlt
    exact bump_prerelease_ok v hd tl n hvalid hsplit hno hparse hlt

/-- Witness for C10: the purely numeric tail `18446744073709551616`
(equal to `2 ^ 64`) makes the bump fail with the non-numeric-tail error,
while the tail `41` is incremented exactly to `42`. -/
theorem C10_u64_tail_witness :
    bump ⟨0, 0, 1, "beta.18446744073709551616", ""⟩ Component.Prerelease =
      Except.error BumpError.nonNumericTail ∧
    bump ⟨0, 0, 1, "rc.41", ""⟩ Component.Prerelease =
      Except.ok ⟨0, 0, 1, "rc.42", ""⟩ := by
  constructor
  · exact C10_u64_tail.1 ⟨0, 0, 1, "beta.18446744073709551616", ""⟩
      (by decide) (by decide) (by decide)
  · have h := C10_u64_tail.2 ⟨0, 0, 1, "rc.41", ""⟩ ['r', 'c'] ['4', '1'] 41
      (by decide) (by decide) (by decide) (by decide) (by decide)
    exact h

end Vergit
